import Mathlib

/-!
Verification of the HyperMageVR session-admission and reward-integrity core.

Shallow embedding of the C++ sources under
`src/UnrealProject/Source/HyperMageVR/`:
  * `JWTValidator.cpp`  — token parsing and validation,
  * `RewardSystem.cpp`  — catalog-validated, idempotent reward grants,
  * `SessionManager.cpp` — session finite-state machine, events, TTL,
  * `HMVRGameMode.cpp`  — admission gating (capacity before token checks).

Modelling conventions:
  * `FString` is `String`; `FString::IsEmpty` is `= ""`.
  * `FDateTime` values are modelled at second granularity as `Int`
    (Unix seconds), which is exact for everything the code does with
    them: `FTimespan::FromHours(72)` is a whole number of seconds, so
    `(T + 72h).ToUnixTimestamp() = T.ToUnixTimestamp() + 72*3600`.
  * `TMap K V` is an association list `List (K × V)` with unique keys;
    `Find` returns the first binding, `Add` replaces or appends.
  * The engine primitives `FBase64::Decode` and `FJsonSerializer`
    (used inside `UJWTValidator::ParseClaims`) live outside this
    repository; the payload → claims step is therefore abstracted as an
    explicit function argument `parseClaims : String → Option FJWTClaims`.
    All theorems about the validator hold for every such function.
  * Fresh GUIDs and `FDateTime::UtcNow()` readings are environment
    inputs, passed as explicit arguments.
-/

namespace HyperMageVR

/-! ## TMap as an association list -/

/-- Embedding of `TMap::Find` — first binding for the key, if any. -/
def mapFind {α : Type} (m : List (String × α)) (k : String) : Option α :=
  (m.find? (fun p => p.1 = k)).map (fun p => p.2)

/-- Embedding of `TMap::Add` — replace the binding when the key is present, else append. -/
def mapAdd {α : Type} (m : List (String × α)) (k : String) (v : α) :
    List (String × α) :=
  if (m.find? (fun p => p.1 = k)).isSome then
    m.map (fun p => if p.1 = k then (k, v) else p)
  else
    m ++ [(k, v)]

/-- In-place mutation through a `TMap::Find` pointer: rewrite the value
stored under `k`. -/
def mapUpdate {α : Type} (m : List (String × α)) (k : String) (f : α → α) :
    List (String × α) :=
  m.map (fun p => if p.1 = k then (p.1, f p.2) else p)

/-! ## JWTValidator.h / JWTValidator.cpp -/

/-- Embedding of `FJWTClaims` (JWTValidator.h). -/
structure FJWTClaims where
  Subject : String
  Issuer : String
  Audience : String
  ExpirationTime : Int
  IssuedAt : Int
  TokenUse : String
  Username : String
  Groups : List String
  deriving DecidableEq, Repr

/-- Default-constructed `FJWTClaims` (string fields empty, timestamps 0). -/
def FJWTClaims.default : FJWTClaims :=
  ⟨"", "", "", 0, 0, "", "", []⟩

/-- Embedding of `FJWTValidationResult` (JWTValidator.h). -/
structure FJWTValidationResult where
  bIsValid : Bool
  ErrorMessage : String
  Claims : FJWTClaims
  deriving DecidableEq, Repr

/-- The static Cognito configuration of `UJWTValidator`. -/
structure JWTConfig where
  CognitoUserPoolId : String
  CognitoClientId : String
  CognitoIssuer : String
  deriving DecidableEq, Repr

/-- The empty (development / open-mode) configuration. -/
def openJWTConfig : JWTConfig := ⟨"", "", ""⟩

/-- Embedding of `UJWTValidator::IsTokenExpired`: current time at or past the
expiration counts as expired (inclusive boundary). -/
def IsTokenExpired (currentTime ExpirationTime : Int) : Bool :=
  currentTime ≥ ExpirationTime

/-- Split a character list at every occurrence of the delimiter,
keeping empty fields (structural recursion, so it evaluates in the
kernel; the built-in `String.split` uses well-founded recursion). -/
def splitFields (delim : Char) : List Char → List (List Char)
  | [] => [[]]
  | c :: cs =>
    if c = delim then
      [] :: splitFields delim cs
    else
      match splitFields delim cs with
      | [] => [[c]]
      | f :: fs => (c :: f) :: fs

/-- String fields of `s` separated by `delim`, empty fields kept. -/
def splitString (delim : Char) (s : String) : List String :=
  (splitFields delim s.data).map (fun cs => ⟨cs⟩)

/-- Embedding of `FString::ParseIntoArray` with a one-character
delimiter and the default `InCullEmpty = true`: the dot-separated
fields with the empty ones discarded. -/
def parseIntoArray (s : String) (delim : Char) : List String :=
  (splitString delim s).filter (fun t => ¬ t = "")

/-- Embedding of `UJWTValidator::ParseToken`: `Token.ParseIntoArray(Parts, ".")`
(which culls empty fields); succeed exactly when three (non-empty)
parts remain. -/
def ParseToken (Token : String) : Option (String × String × String) :=
  let Parts := parseIntoArray Token '.'
  match Parts with
  | [h, p, s] => some (h, p, s)
  | _ => none

/-- Embedding of `UJWTValidator::VerifySignature`: in this repository the body always
succeeds (signature verification is skipped in development mode). -/
def VerifySignature (_Header _Payload _Signature : String) : Bool :=
  true

/-- Embedding of the `FString` equality used by `operator==`/`operator!=`:
Unreal compares with `ESearchCase::IgnoreCase` (`Stricmp`), i.e.
equality after ASCII lower-casing. -/
def stringEqCI (a b : String) : Bool :=
  decide (a.data.map Char.toLower = b.data.map Char.toLower)

/-- Embedding of `UJWTValidator::ValidateClaims`: returns `some errorMessage` on the
first failing check, `none` when all claims checks pass. Issuer and
audience checks are skipped when the corresponding configuration string
is empty; the `!=` comparisons on issuer, audience and token-use are
`FString` comparisons, hence case-insensitive (`stringEqCI`). -/
def ValidateClaims (cfg : JWTConfig) (Claims : FJWTClaims) : Option String :=
  if ¬ cfg.CognitoIssuer = "" ∧ ¬ stringEqCI Claims.Issuer cfg.CognitoIssuer then
    some ("Invalid issuer: expected " ++ cfg.CognitoIssuer ++ ", got " ++ Claims.Issuer)
  else if ¬ cfg.CognitoClientId = "" ∧ ¬ stringEqCI Claims.Audience cfg.CognitoClientId then
    some ("Invalid audience: expected " ++ cfg.CognitoClientId ++ ", got " ++ Claims.Audience)
  else if ¬ stringEqCI Claims.TokenUse "access" ∧ ¬ stringEqCI Claims.TokenUse "id" then
    some ("Invalid token_use: " ++ Claims.TokenUse)
  else if Claims.Subject = "" then
    some "Missing subject (player ID)"
  else
    none

/-- Embedding of `UJWTValidator::ValidateToken`. `parseClaims` abstracts
`ParseClaims` = base64url-decode + JSON-deserialize of the payload
segment (engine primitives); `currentTime` abstracts
`FDateTime::UtcNow().ToUnixTimestamp()`. The returned record mirrors
`OutResult` after the call. -/
def ValidateToken (cfg : JWTConfig) (currentTime : Int)
    (parseClaims : String → Option FJWTClaims) (Token : String) :
    FJWTValidationResult :=
  if Token = "" then
    ⟨false, "Token is empty", FJWTClaims.default⟩
  else
    match ParseToken Token with
    | none => ⟨false, "Invalid token format", FJWTClaims.default⟩
    | some (Header, Payload, Signature) =>
      match parseClaims Payload with
      | none => ⟨false, "Failed to parse token claims", FJWTClaims.default⟩
      | some Claims =>
        if IsTokenExpired currentTime Claims.ExpirationTime then
          ⟨false, "Token has expired", Claims⟩
        else
          match ValidateClaims cfg Claims with
          | some err => ⟨false, err, Claims⟩
          | none =>
            if ¬ cfg.CognitoUserPoolId = "" ∧
                ¬ VerifySignature Header Payload Signature then
              ⟨false, "Token signature verification failed", Claims⟩
            else
              ⟨true, "", Claims⟩

/-- Embedding of `UJWTValidator::DecodeToken`: structural parse then claims parse; no
expiration or claims validation. `none` models returning `false`. -/
def DecodeToken (parseClaims : String → Option FJWTClaims) (Token : String) :
    Option FJWTClaims :=
  match ParseToken Token with
  | none => none
  | some (_, Payload, _) => parseClaims Payload

/-! ## RewardSystem.h / RewardSystem.cpp -/

/-- Embedding of `FRewardCatalogEntry` (RewardSystem.h). -/
structure FRewardCatalogEntry where
  Id : String
  Name : String
  Description : String
  Category : String
  deriving DecidableEq, Repr

/-- Embedding of `FRewardCatalog` (RewardSystem.h). -/
structure FRewardCatalog where
  Version : String
  LastUpdated : String
  Rewards : List FRewardCatalogEntry
  deriving DecidableEq, Repr

/-- Embedding of `FRewardGrantResult` (RewardSystem.h). -/
structure FRewardGrantResult where
  bSuccess : Bool
  ErrorCode : String
  ErrorMessage : String
  RewardId : String
  deriving DecidableEq, Repr

/-- Embedding of `FRewardGrantResult::Success`. -/
def FRewardGrantResult.success (InRewardId : String) : FRewardGrantResult :=
  ⟨true, "", "", InRewardId⟩

/-- Embedding of `FRewardGrantResult::Failure` (the default for the optional
`InRewardId` argument is the empty string). -/
def FRewardGrantResult.failure (InErrorCode InErrorMessage InRewardId : String) :
    FRewardGrantResult :=
  ⟨false, InErrorCode, InErrorMessage, InRewardId⟩

/-- The mutable fields of `URewardSystem`. -/
structure RewardSystemState where
  Catalog : FRewardCatalog
  PlayerRewards : List (String × List String)
  bCatalogLoaded : Bool
  deriving DecidableEq, Repr

/-- Embedding of `URewardSystem::IsValidRewardId`: true iff the catalog is loaded and
some entry has this id. -/
def IsValidRewardId (st : RewardSystemState) (RewardId : String) : Bool :=
  if ¬ st.bCatalogLoaded then
    false
  else
    st.Catalog.Rewards.any (fun e => e.Id = RewardId)

/-- Embedding of `TMap::FindOrAdd` on `PlayerRewards`: insert an empty list for the
player when absent. -/
def playerRewardsFindOrAdd (m : List (String × List String)) (PlayerId : String) :
    List (String × List String) :=
  if (mapFind m PlayerId).isSome then m else m ++ [(PlayerId, [])]

/-- Embedding of `URewardSystem::GrantReward`: validation chain, first match wins,
then append the reward id to the player's list. Returns the result
together with the post-state. -/
def GrantReward (st : RewardSystemState) (PlayerId RewardId : String) :
    FRewardGrantResult × RewardSystemState :=
  if PlayerId = "" then
    (FRewardGrantResult.failure "INVALID_PLAYER_ID" "Player ID is empty" "", st)
  else if RewardId = "" then
    (FRewardGrantResult.failure "INVALID_REWARD_ID" "Reward ID is empty" "", st)
  else if ¬ st.bCatalogLoaded then
    (FRewardGrantResult.failure "REWARD_CATALOG_NOT_FOUND"
      "Rewards catalog is not loaded" RewardId, st)
  else if ¬ IsValidRewardId st RewardId then
    (FRewardGrantResult.failure "INVALID_REWARD_ID"
      ("Reward ID " ++ RewardId ++ " not found in catalog") RewardId, st)
  else
    let m := playerRewardsFindOrAdd st.PlayerRewards PlayerId
    let Rewards := (mapFind m PlayerId).getD []
    if Rewards.contains RewardId then
      (FRewardGrantResult.failure "REWARD_ALREADY_GRANTED"
        ("Reward " ++ RewardId ++ " already granted") RewardId,
       { st with PlayerRewards := m })
    else
      (FRewardGrantResult.success RewardId,
       { st with PlayerRewards := mapUpdate m PlayerId (fun rs => rs ++ [RewardId]) })

/-- Embedding of `URewardSystem::GetPlayerRewards`. -/
def GetPlayerRewards (st : RewardSystemState) (PlayerId : String) : List String :=
  (mapFind st.PlayerRewards PlayerId).getD []

/-- Embedding of `URewardSystem::HasReward`. -/
def HasReward (st : RewardSystemState) (PlayerId RewardId : String) : Bool :=
  match mapFind st.PlayerRewards PlayerId with
  | some Rewards => Rewards.contains RewardId
  | none => false

/-- A reward-system state with a loaded catalog and an empty ledger:
the state right after a successful `Initialize`. -/
def freshRewardSystem (cat : FRewardCatalog) : RewardSystemState :=
  ⟨cat, [], true⟩

/-- Well-formedness of the `PlayerRewards` ledger: keys are unique (as
in a `TMap`) and every player's reward list is duplicate-free. -/
abbrev LedgerOK (m : List (String × List String)) : Prop :=
  (m.map Prod.fst).Nodup ∧ ∀ p ∈ m, p.2.Nodup

/-! ## SessionManager.h / SessionManager.cpp -/

/-- Embedding of `ESessionState` (SessionManager.h). -/
inductive ESessionState where
  | CREATED
  | ACTIVE
  | ENDED
  | EXPIRED
  deriving DecidableEq, Repr

/-- Embedding of `FInteractionEvent` (SessionManager.h); timestamps in Unix seconds. -/
structure FInteractionEvent where
  EventId : String
  Timestamp : Int
  PlayerId : String
  EventType : String
  Data : List (String × String)
  TTL : Int
  deriving DecidableEq, Repr

/-- Embedding of `FPlayerSession` (SessionManager.h). -/
structure FPlayerSession where
  SessionId : String
  PlayerId : String
  ShardId : String
  State : ESessionState
  StartTime : Int
  EndTime : Int
  Events : List FInteractionEvent
  Rewards : List String
  TTL : Int
  deriving DecidableEq, Repr

/-- The `ActiveSessions` map of `USessionManager`. -/
abbrev Registry : Type := List (String × FPlayerSession)

/-- Embedding of `USessionManager::CalculateTTLFromTime`: 72 hours past the given
time, as a Unix timestamp in seconds. -/
def CalculateTTLFromTime (FromTime : Int) : Int :=
  FromTime + 72 * 3600

/-- Embedding of `USessionManager::CreateSession`. The fresh GUID and the current
time are environment inputs. Returns the created session and the
post-state of `ActiveSessions`. -/
def CreateSession (st : Registry) (freshId PlayerId ShardId : String)
    (now : Int) : FPlayerSession × Registry :=
  let NewSession : FPlayerSession :=
    ⟨freshId, PlayerId, ShardId, ESessionState.CREATED, now, 0, [], [], 0⟩
  (NewSession, mapAdd st NewSession.SessionId NewSession)

/-- Embedding of `USessionManager::TransitionState`: fail (no mutation) unless the
session exists and its state is exactly `FromState`. -/
def TransitionState (st : Registry) (SessionId : String)
    (FromState ToState : ESessionState) : Bool × Registry :=
  match mapFind st SessionId with
  | none => (false, st)
  | some Session =>
    if ¬ Session.State = FromState then
      (false, st)
    else
      (true, mapUpdate st SessionId (fun s => { s with State := ToState }))

/-- Embedding of `USessionManager::StartSession`: `CREATED → ACTIVE`. -/
def StartSession (st : Registry) (SessionId : String) : Bool × Registry :=
  TransitionState st SessionId ESessionState.CREATED ESessionState.ACTIVE

/-- Embedding of `USessionManager::EndSession`: `ACTIVE → ENDED`; on success stamp
the end time, compute the TTL from it, and copy that TTL onto every
recorded event. `now` abstracts `FDateTime::UtcNow()`. -/
def EndSession (st : Registry) (SessionId : String) (now : Int) :
    Bool × Registry :=
  let r := TransitionState st SessionId ESessionState.ACTIVE ESessionState.ENDED
  if ¬ r.1 then
    (false, r.2)
  else
    (true, mapUpdate r.2 SessionId (fun s =>
      let ttl := CalculateTTLFromTime now
      { s with
          EndTime := now
          TTL := ttl
          Events := s.Events.map (fun e => { e with TTL := ttl }) }))

/-- Embedding of `USessionManager::TrackEvent`: no-op when the session is missing or
not `ACTIVE`; otherwise append a fresh event with TTL 0. The fresh
event id and the current time are environment inputs. -/
def TrackEvent (st : Registry) (SessionId EventType : String)
    (EventData : List (String × String)) (freshId : String) (now : Int) :
    Registry :=
  match mapFind st SessionId with
  | none => st
  | some Session =>
    if ¬ Session.State = ESessionState.ACTIVE then
      st
    else
      mapUpdate st SessionId (fun s =>
        { s with Events := s.Events ++ [⟨freshId, now, s.PlayerId, EventType, EventData, 0⟩] })

/-- Embedding of `USessionManager::AddReward`: no-op when the session is missing or
the reward id is already in the session's reward list; otherwise append
it. (Note: no check of the session's state.) -/
def AddReward (st : Registry) (SessionId RewardId : String) : Registry :=
  match mapFind st SessionId with
  | none => st
  | some Session =>
    if Session.Rewards.contains RewardId then
      st
    else
      mapUpdate st SessionId (fun s => { s with Rewards := s.Rewards ++ [RewardId] })

/-- Embedding of `USessionManager::DiscardSessionState`: clear the event list,
keep everything else. -/
def DiscardSessionState (st : Registry) (SessionId : String) : Registry :=
  match mapFind st SessionId with
  | none => st
  | some _ =>
    mapUpdate st SessionId (fun s => { s with Events := [] })

/-- Embedding of `USessionManager::GetSessionState`: `EXPIRED` is the sentinel for an
unknown session id. -/
def GetSessionState (st : Registry) (SessionId : String) : ESessionState :=
  match mapFind st SessionId with
  | some Session => Session.State
  | none => ESessionState.EXPIRED

/-- One mutating registry operation, with its environment inputs. -/
inductive RegOp where
  | create (freshId PlayerId ShardId : String) (now : Int)
  | start (SessionId : String)
  | endSession (SessionId : String) (now : Int)
  | trackEvent (SessionId EventType : String)
      (EventData : List (String × String)) (freshId : String) (now : Int)
  | addReward (SessionId RewardId : String)
  | discard (SessionId : String)
  deriving Repr

/-- Apply one registry operation (discarding the returned value). -/
def applyRegOp (st : Registry) (op : RegOp) : Registry :=
  match op with
  | RegOp.create freshId PlayerId ShardId now =>
      (CreateSession st freshId PlayerId ShardId now).2
  | RegOp.start SessionId => (StartSession st SessionId).2
  | RegOp.endSession SessionId now => (EndSession st SessionId now).2
  | RegOp.trackEvent SessionId EventType EventData freshId now =>
      TrackEvent st SessionId EventType EventData freshId now
  | RegOp.addReward SessionId RewardId => AddReward st SessionId RewardId
  | RegOp.discard SessionId => DiscardSessionState st SessionId

/-- Run a sequence of registry operations from the empty registry. -/
def runRegOps (ops : List RegOp) : Registry :=
  List.foldl applyRegOp ([] : Registry) ops

/-! ## HMVRGameMode.h / HMVRGameMode.cpp -/

/-- State of `AHMVRGameMode` relevant to admission. `ConnectedPlayers`
holds the validity of each `TWeakObjectPtr` in the array (a stale
handle is `false`). -/
structure GameModeState where
  ConnectedPlayers : List Bool
  MaxPlayers : Int
  bGameLiftInitialized : Bool
  bGameLiftProcessReady : Bool
  deriving DecidableEq, Repr

/-- Embedding of `AHMVRGameMode::GetCurrentPlayerCount`: count only the
connections whose underlying handle is still valid (lazy filtering, no
removal). -/
def GetCurrentPlayerCount (st : GameModeState) : Int :=
  ((st.ConnectedPlayers.filter (fun b => b)).length : Int)

/-- Embedding of `AHMVRGameMode::CanAcceptNewPlayer`. -/
def CanAcceptNewPlayer (st : GameModeState) : Bool :=
  GetCurrentPlayerCount st < st.MaxPlayers

/-- Connection options: `UGameplayStatics::ParseOption` yields the empty
string for an absent key, so each option is just a string. -/
structure ConnectOptions where
  Token : String
  PlayerSessionId : String
  deriving DecidableEq, Repr

/-- Embedding of `AHMVRGameMode::ValidateJWTToken`: wraps the validator,
then requires a non-empty subject as the player id. -/
def ValidateJWTToken (cfg : JWTConfig) (currentTime : Int)
    (parseClaims : String → Option FJWTClaims) (Token : String) :
    Except String String :=
  if Token = "" then
    Except.error "Token is empty"
  else
    let r := ValidateToken cfg currentTime parseClaims Token
    if ¬ r.bIsValid then
      Except.error r.ErrorMessage
    else if r.Claims.Subject = "" then
      Except.error "Token does not contain player ID"
    else
      Except.ok r.Claims.Subject

/-- Embedding of `AHMVRGameMode::ValidatePlayerSession`: `none` means
the session id validated, `some msg` is the failure reason. -/
def ValidatePlayerSession (st : GameModeState) (PlayerSessionId : String) :
    Option String :=
  if PlayerSessionId = "" then
    some "Player session ID is empty"
  else if ¬ st.bGameLiftInitialized ∨ ¬ st.bGameLiftProcessReady then
    some "GameLift not initialized"
  else
    none

/-- The rejection message produced by the capacity gate in `PreLogin`. -/
def serverFullMsg (st : GameModeState) : String :=
  "Server full. Maximum " ++ toString st.MaxPlayers ++ " players allowed."

/-- The part of `AHMVRGameMode::PreLogin` after the capacity gate: token
presence, token validation, then the optional GameLift reservation
check. `none` models leaving `ErrorMessage` empty (admission allowed);
`some msg` models setting `ErrorMessage` and returning. -/
def PreLoginAfterCapacity (st : GameModeState) (cfg : JWTConfig)
    (currentTime : Int) (parseClaims : String → Option FJWTClaims)
    (opts : ConnectOptions) : Option String :=
  if opts.Token = "" then
    some "Authentication failed: No JWT token provided"
  else
    match ValidateJWTToken cfg currentTime parseClaims opts.Token with
    | Except.error e => some e
    | Except.ok _PlayerId =>
      if st.bGameLiftInitialized then
        if ¬ opts.PlayerSessionId = "" then
          match ValidatePlayerSession st opts.PlayerSessionId with
          | some e => some ("GameLift validation failed: " ++ e)
          | none => none
        else
          some "GameLift player session ID required"
      else
        none

/-- Embedding of `AHMVRGameMode::PreLogin`: the capacity gate runs
first; only when it passes does any token processing happen. -/
def PreLogin (st : GameModeState) (cfg : JWTConfig) (currentTime : Int)
    (parseClaims : String → Option FJWTClaims) (opts : ConnectOptions) :
    Option String :=
  if ¬ CanAcceptNewPlayer st then
    some (serverFullMsg st)
  else
    PreLoginAfterCapacity st cfg currentTime parseClaims opts

/-- Every stored session is in one of the three normal states (never the
`EXPIRED` sentinel). -/
abbrev RegistryOK (st : Registry) : Prop :=
  ∀ p ∈ st, ¬ p.2.State = ESessionState.EXPIRED

/-! ## Concrete data for witnesses and counterexamples -/

/-- A two-entry catalog matching the scenario of spec §8. -/
def demoCatalog : FRewardCatalog :=
  ⟨"1.0", "2026-01-01",
   [⟨"sword_of_dawn", "Sword of Dawn", "A blade", "weapon"⟩,
    ⟨"shield_basic", "Basic Shield", "A shield", "armor"⟩]⟩

/-- Claims carried by the demo token payload: subject present,
token-use "access", expiration 100. -/
def demoClaims : FJWTClaims :=
  ⟨"player-1", "", "", 100, 0, "access", "", []⟩

/-- A concrete payload decoder: the payload segment of the demo token
(`eyJzdWIiOiJ4In0` is the base64url form of a small JSON object)
decodes to `demoClaims`; everything else fails to decode. -/
def demoParseClaims : String → Option FJWTClaims :=
  fun p => if p = "eyJzdWIiOiJ4In0" then some demoClaims else none

/-- A registry holding one freshly created session `s1` (state CREATED). -/
def demoCreatedReg : Registry :=
  (CreateSession [] "s1" "p1" "shard1" 0).2

/-- The demo registry after `StartSession` (state ACTIVE). -/
def demoActiveReg : Registry :=
  (StartSession demoCreatedReg "s1").2

/-- The active demo registry with one tracked event. -/
def demoEventReg : Registry :=
  TrackEvent demoActiveReg "s1" "spell_cast" [("rune", "fire")] "e1" 5

/-- A game-mode state at capacity: `MaxPlayers = 15` and fifteen
admitted, still-valid connections. -/
def fullServer : GameModeState :=
  ⟨List.replicate 15 true, 15, false, false⟩

/-- Connection options carrying the demo token. -/
def demoOpts : ConnectOptions :=
  ⟨"h.eyJzdWIiOiJ4In0.s", ""⟩

/-! ## Helper lemmas on the map operations -/

theorem mapFind_mapUpdate_self {α : Type} (m : List (String × α)) (k : String)
    (f : α → α) : mapFind (mapUpdate m k f) k = (mapFind m k).map f := by
  induction m with
  | nil => rfl
  | cons p tl ih =>
    by_cases h : p.1 = k
    · simp [mapFind, mapUpdate, List.find?_cons, h]
    · simp only [mapFind, mapUpdate, List.map_cons] at ih ⊢
      rw [if_neg h]
      rw [List.find?_cons_of_neg, List.find?_cons_of_neg]
      · exact ih
      · simpa using h
      · simpa using h

theorem mapFind_mem {α : Type} {m : List (String × α)} {k : String} {a : α}
    (h : mapFind m k = some a) : ∃ p ∈ m, p.2 = a := by
  unfold mapFind at h
  cases hf : m.find? (fun p => p.1 = k) with
  | none => rw [hf] at h; cases h
  | some p =>
    rw [hf] at h
    exact ⟨p, List.mem_of_find?_eq_some hf, by simpa using h⟩

theorem mapFind_append_new {α : Type} {m : List (String × α)} {k : String}
    (v : α) (h : mapFind m k = none) : mapFind (m ++ [(k, v)]) k = some v := by
  induction m with
  | nil => simp [mapFind]
  | cons p tl ih =>
    unfold mapFind at h ih ⊢
    by_cases hp : p.1 = k
    · rw [List.find?_cons_of_pos _ (by simpa using hp)] at h
      cases h
    · rw [List.cons_append, List.find?_cons_of_neg _ (by simpa using hp)]
      rw [List.find?_cons_of_neg _ (by simpa using hp)] at h
      exact ih h

theorem mapUpdate_preserves {α : Type} (P : α → Prop) {m : List (String × α)}
    {k : String} {f : α → α} (hm : ∀ p ∈ m, P p.2) (hf : ∀ a, P a → P (f a)) :
    ∀ q ∈ mapUpdate m k f, P q.2 := by
  intro q hq
  rcases List.mem_map.1 hq with ⟨p, hp, rfl⟩
  by_cases h : p.1 = k
  · rw [if_pos h]
    exact hf _ (hm p hp)
  · rw [if_neg h]
    exact hm p hp

theorem mapAdd_preserves {α : Type} (P : α → Prop) {m : List (String × α)}
    {k : String} {v : α} (hm : ∀ p ∈ m, P p.2) (hv : P v) :
    ∀ q ∈ mapAdd m k v, P q.2 := by
  intro q hq
  unfold mapAdd at hq
  split at hq
  · rcases List.mem_map.1 hq with ⟨p, hp, rfl⟩
    by_cases h : p.1 = k
    · rw [if_pos h]
      exact hv
    · rw [if_neg h]
      exact hm p hp
  · rcases List.mem_append.1 hq with h | h
    · exact hm q h
    · simp only [List.mem_singleton] at h
      subst h
      exact hv

/-! ## Helper lemmas on the session state machine -/

theorem transitionState_fst (st : Registry) (sid : String)
    (fs ts : ESessionState) :
    (TransitionState st sid fs ts).1 = true ↔
      ∃ s, mapFind st sid = some s ∧ s.State = fs := by
  unfold TransitionState
  cases hf : mapFind st sid with
  | none => simp
  | some s =>
    by_cases hs : s.State = fs
    · simp [hs]
    · simp [hs]

theorem transitionState_fail {st : Registry} {sid : String}
    {fs ts : ESessionState} (h : (TransitionState st sid fs ts).1 = false) :
    (TransitionState st sid fs ts).2 = st := by
  unfold TransitionState at h ⊢
  cases hf : mapFind st sid with
  | none => rfl
  | some s =>
    rw [hf] at h
    by_cases hs : s.State = fs
    · simp [hs] at h
    · simp [hs]

theorem transitionState_success_find {st : Registry} {sid : String} {s : FPlayerSession}
    (fs ts : ESessionState) (h : mapFind st sid = some s) (hs : s.State = fs) :
    (TransitionState st sid fs ts).1 = true ∧
      mapFind (TransitionState st sid fs ts).2 sid =
        some { s with State := ts } := by
  unfold TransitionState
  simp only [h]
  rw [if_neg (by simp [hs])]
  refine ⟨rfl, ?_⟩
  rw [mapFind_mapUpdate_self, h]
  rfl

theorem endSession_fst (st : Registry) (sid : String) (now : Int) :
    (EndSession st sid now).1 =
      (TransitionState st sid ESessionState.ACTIVE ESessionState.ENDED).1 := by
  cases hb : (TransitionState st sid ESessionState.ACTIVE ESessionState.ENDED).1 with
  | false => simp [EndSession, hb]
  | true => simp [EndSession, hb]

theorem endSession_fail {st : Registry} {sid : String} {now : Int}
    (h : (EndSession st sid now).1 = false) : (EndSession st sid now).2 = st := by
  have h' : (TransitionState st sid ESessionState.ACTIVE ESessionState.ENDED).1 = false := by
    rw [← endSession_fst st sid now]
    exact h
  have h2 := transitionState_fail h'
  simp [EndSession, h', h2]

theorem endSession_snd_true {st : Registry} {sid : String} (now : Int)
    (hb : (TransitionState st sid ESessionState.ACTIVE ESessionState.ENDED).1 = true) :
    (EndSession st sid now).2 =
      mapUpdate (TransitionState st sid ESessionState.ACTIVE ESessionState.ENDED).2 sid
        (fun s =>
          { s with
              EndTime := now
              TTL := CalculateTTLFromTime now
              Events := s.Events.map
                (fun e => { e with TTL := CalculateTTLFromTime now }) }) := by
  simp [EndSession, hb]

theorem endSession_success {st : Registry} {sid : String} {s : FPlayerSession}
    (now : Int) (h : mapFind st sid = some s)
    (hs : s.State = ESessionState.ACTIVE) :
    (EndSession st sid now).1 = true ∧
      mapFind (EndSession st sid now).2 sid =
        some { s with
                 State := ESessionState.ENDED
                 EndTime := now
                 TTL := CalculateTTLFromTime now
                 Events := s.Events.map
                   (fun e => { e with TTL := CalculateTTLFromTime now }) } := by
  obtain ⟨h1, h2⟩ :=
    transitionState_success_find ESessionState.ACTIVE ESessionState.ENDED h hs
  refine ⟨by rw [endSession_fst]; exact h1, ?_⟩
  rw [endSession_snd_true now h1, mapFind_mapUpdate_self, h2]
  rfl

/-! ## Registry reachability invariant -/

theorem transitionState_OK {st : Registry} {sid : String} {fs ts : ESessionState}
    (h : RegistryOK st) (hts : ¬ ts = ESessionState.EXPIRED) :
    RegistryOK (TransitionState st sid fs ts).2 := by
  unfold TransitionState
  cases hf : mapFind st sid with
  | none => exact h
  | some s =>
    dsimp only
    by_cases hs : s.State = fs
    · rw [if_neg (by simp [hs])]
      show RegistryOK (mapUpdate st sid (fun s => { s with State := ts }))
      refine mapUpdate_preserves
        (fun (a : FPlayerSession) => ¬ a.State = ESessionState.EXPIRED) h ?_
      intro a _
      exact hts
    · rw [if_pos hs]
      exact h

theorem applyRegOp_OK (st : Registry) (op : RegOp) (h : RegistryOK st) :
    RegistryOK (applyRegOp st op) := by
  cases op with
  | create freshId PlayerId ShardId now =>
    show RegistryOK (mapAdd st freshId
      ⟨freshId, PlayerId, ShardId, ESessionState.CREATED, now, 0, [], [], 0⟩)
    refine mapAdd_preserves (fun (a : FPlayerSession) => ¬ a.State = ESessionState.EXPIRED) h ?_
    simp
  | start SessionId =>
    show RegistryOK (StartSession st SessionId).2
    exact transitionState_OK h (by simp)
  | endSession SessionId now =>
    have hok : RegistryOK
        (TransitionState st SessionId ESessionState.ACTIVE ESessionState.ENDED).2 :=
      transitionState_OK h (by simp)
    show RegistryOK (EndSession st SessionId now).2
    cases hb : (TransitionState st SessionId ESessionState.ACTIVE ESessionState.ENDED).1 with
    | false =>
      rw [endSession_fail (by rw [endSession_fst]; exact hb)]
      exact h
    | true =>
      rw [endSession_snd_true now hb]
      refine mapUpdate_preserves (fun (a : FPlayerSession) => ¬ a.State = ESessionState.EXPIRED) hok ?_
      intro a ha
      exact ha
  | trackEvent SessionId EventType EventData freshId now =>
    show RegistryOK (TrackEvent st SessionId EventType EventData freshId now)
    unfold TrackEvent
    cases hf : mapFind st SessionId with
    | none => exact h
    | some s =>
      dsimp only
      by_cases hs : s.State = ESessionState.ACTIVE
      · rw [if_neg (by simp [hs])]
        refine mapUpdate_preserves (fun (a : FPlayerSession) => ¬ a.State = ESessionState.EXPIRED) h ?_
        intro a ha
        exact ha
      · rw [if_pos hs]
        exact h
  | addReward SessionId RewardId =>
    show RegistryOK (AddReward st SessionId RewardId)
    unfold AddReward
    cases hf : mapFind st SessionId with
    | none => exact h
    | some s =>
      dsimp only
      by_cases hs : s.Rewards.contains RewardId = true
      · rw [if_pos hs]
        exact h
      · rw [if_neg hs]
        refine mapUpdate_preserves (fun (a : FPlayerSession) => ¬ a.State = ESessionState.EXPIRED) h ?_
        intro a ha
        exact ha
  | discard SessionId =>
    show RegistryOK (DiscardSessionState st SessionId)
    unfold DiscardSessionState
    cases hf : mapFind st SessionId with
    | none => exact h
    | some s =>
      refine mapUpdate_preserves
        (fun (a : FPlayerSession) => ¬ a.State = ESessionState.EXPIRED) h ?_
      intro a ha
      exact ha

theorem runRegOps_OK (ops : List RegOp) : RegistryOK (runRegOps ops) := by
  suffices h : ∀ (l : List RegOp) (st : Registry), RegistryOK st →
      RegistryOK (List.foldl applyRegOp st l) by
    exact h ops [] (by intro p hp; cases hp)
  intro l
  induction l with
  | nil => exact fun st hst => hst
  | cons op tl ih =>
    intro st hst
    exact ih (applyRegOp st op) (applyRegOp_OK st op hst)

/-! ## Token structure helpers -/

theorem parseToken_isSome_iff (Token : String) :
    (ParseToken Token).isSome = true ↔
      (parseIntoArray Token '.').length = 3 := by
  simp only [ParseToken]
  rcases hl : parseIntoArray Token '.' with
    _ | ⟨a, _ | ⟨b, _ | ⟨c, _ | ⟨d, tl⟩⟩⟩⟩ <;> simp

theorem parseToken_empty : ParseToken "" = none := by decide

theorem stringEqCI_refl (a : String) : stringEqCI a a = true := by
  simp [stringEqCI]

/-! ## Claim theorems: token validator -/

/-- C10: the token structure check counts only non-empty dot-separated
segments (empty segments are discarded during splitting), so a token
string containing empty segments between or around dots — for example
"a..b.c" or "a.b.c." — is accepted as structurally well-formed by
`ParseToken` (and hence by Validate/Decode) exactly when it contains
precisely three non-empty segments. -/
theorem parseToken_counts_nonempty_segments :
    (∀ Token : String,
        (ParseToken Token).isSome = true ↔
          (parseIntoArray Token '.').length = 3) ∧
    ParseToken "a..b.c" = some ("a", "b", "c") ∧
    ParseToken "a.b.c." = some ("a", "b", "c") ∧
    (∀ (parseClaims : String → Option FJWTClaims) (Token Header Payload Sig : String),
        ParseToken Token = some (Header, Payload, Sig) →
        DecodeToken parseClaims Token = parseClaims Payload) := by
  refine ⟨parseToken_isSome_iff, by decide, by decide, ?_⟩
  intro parseClaims Token Header Payload Sig hp
  unfold DecodeToken
  rw [hp]

/-- Witness for C10 at a token with an empty segment: it decodes through
the payload segment. -/
theorem parseToken_counts_nonempty_segments_witness :
    DecodeToken demoParseClaims "h..eyJzdWIiOiJ4In0.s" = some demoClaims :=
  parseToken_counts_nonempty_segments.2.2.2 demoParseClaims
    "h..eyJzdWIiOiJ4In0.s" "h" "eyJzdWIiOiJ4In0" "s" (by decide)

/-- C9 counterexample: the token "h.eyJzdWIiOiJ4In0.s." splits into four
dot-separated fields (so it is not exactly three dot-separated
segments), yet `ValidateToken` does not fail with the malformed-token
error — with a decodable payload it validates outright — and
`DecodeToken` returns claims. -/
theorem malformed_token_counterexample :
    (splitString '.' "h.eyJzdWIiOiJ4In0.s.").length = 4 ∧
    (ValidateToken openJWTConfig 0 demoParseClaims "h.eyJzdWIiOiJ4In0.s.").bIsValid = true ∧
    ¬ (ValidateToken openJWTConfig 0 demoParseClaims
        "h.eyJzdWIiOiJ4In0.s.").ErrorMessage = "Invalid token format" ∧
    DecodeToken demoParseClaims "h.eyJzdWIiOiJ4In0.s." = some demoClaims := by
  decide

/-- C9 (amended): for every token string with exactly 2 or exactly 4
NON-EMPTY dot-separated segments (the splitter discards empty fields),
both Validate and Decode fail with the malformed-token outcome,
returning no claims. -/
theorem malformed_token_rejected (cfg : JWTConfig) (currentTime : Int)
    (parseClaims : String → Option FJWTClaims) (Token : String)
    (h : (parseIntoArray Token '.').length = 2 ∨
         (parseIntoArray Token '.').length = 4) :
    (ValidateToken cfg currentTime parseClaims Token).bIsValid = false ∧
    (ValidateToken cfg currentTime parseClaims Token).ErrorMessage
      = "Invalid token format" ∧
    DecodeToken parseClaims Token = none := by
  have hne : ¬ Token = "" := by
    intro he
    subst he
    revert h
    decide
  have h3 : ¬ (parseIntoArray Token '.').length = 3 := by
    rcases h with h | h <;> omega
  have hp : ParseToken Token = none := by
    cases hps : ParseToken Token with
    | none => rfl
    | some v =>
      exact absurd ((parseToken_isSome_iff Token).1 (by rw [hps]; rfl)) h3
  refine ⟨?_, ?_, ?_⟩ <;> simp [ValidateToken, DecodeToken, hne, hp]

/-- Witness for the amended C9 at a 2-segment token. -/
theorem malformed_token_rejected_witness :
    (ValidateToken openJWTConfig 0 demoParseClaims "a.b").ErrorMessage
      = "Invalid token format" :=
  (malformed_token_rejected openJWTConfig 0 demoParseClaims "a.b" (by decide)).2.1

/-- C5: for every structurally well-formed token whose payload parses,
if the current time is greater than or equal to the exp claim (equality
counts as expired), `ValidateToken` fails with the token-expired outcome
regardless of issuer, audience, token-use or subject. -/
theorem token_expired_priority (cfg : JWTConfig) (currentTime : Int)
    (parseClaims : String → Option FJWTClaims)
    (Token Header Payload Sig : String) (Claims : FJWTClaims)
    (hp : ParseToken Token = some (Header, Payload, Sig))
    (hc : parseClaims Payload = some Claims)
    (hexp : Claims.ExpirationTime ≤ currentTime) :
    (ValidateToken cfg currentTime parseClaims Token).bIsValid = false ∧
    (ValidateToken cfg currentTime parseClaims Token).ErrorMessage
      = "Token has expired" := by
  have hne : ¬ Token = "" := by
    intro he
    subst he
    rw [parseToken_empty] at hp
    cases hp
  have hexp' : IsTokenExpired currentTime Claims.ExpirationTime = true := by
    simp only [IsTokenExpired, ge_iff_le, decide_eq_true_eq]
    exact hexp
  constructor <;> simp [ValidateToken, hne, hp, hc, hexp']

/-- Witness for C5 at the inclusive boundary: `exp = 100`, current time
100, with otherwise fully valid claims and an open configuration. -/
theorem token_expired_priority_witness :
    (ValidateToken openJWTConfig 100 demoParseClaims
      "h.eyJzdWIiOiJ4In0.s").ErrorMessage = "Token has expired" :=
  (token_expired_priority openJWTConfig 100 demoParseClaims
    "h.eyJzdWIiOiJ4In0.s" "h" "eyJzdWIiOiJ4In0" "s" demoClaims
    (by decide) (by decide) (by decide)).2

/-- C7 counterexample: the configured-issuer match is NOT
case-sensitive — with configured issuer "abc", a token whose issuer is
"ABC" (a different string) passes the claims check and validates
outright, because `FString::operator!=` compares case-insensitively. -/
theorem open_mode_validation_counterexample :
    ¬ ("ABC" : String) = "abc" ∧
    ValidateClaims ⟨"", "", "abc"⟩ { demoClaims with Issuer := "ABC" } = none ∧
    (ValidateToken ⟨"", "", "abc"⟩ 0
      (fun p => if p = "eyJzdWIiOiJ4In0"
        then some { demoClaims with Issuer := "ABC" } else none)
      "h.eyJzdWIiOiJ4In0.s").bIsValid = true := by
  decide

/-- C7 (amended): with no configured issuer the issuer check is
vacuously true and with no configured audience the audience check is
vacuously true (first conjunct: every well-formed, unexpired token with
a valid token-use and non-empty subject validates and returns its
embedded subject); when configured, the match is exact up to ASCII
letter case — a passing check means case-insensitive string equality
(second conjunct) and a case-insensitively different issuer is rejected
(third conjunct). -/
theorem open_mode_validation :
    (∀ (PoolId : String) (currentTime : Int)
        (parseClaims : String → Option FJWTClaims)
        (Token Header Payload Sig : String) (Claims : FJWTClaims),
        ParseToken Token = some (Header, Payload, Sig) →
        parseClaims Payload = some Claims →
        currentTime < Claims.ExpirationTime →
        (Claims.TokenUse = "access" ∨ Claims.TokenUse = "id") →
        ¬ Claims.Subject = "" →
        ValidateToken ⟨PoolId, "", ""⟩ currentTime parseClaims Token =
          ⟨true, "", Claims⟩) ∧
    (∀ (cfg : JWTConfig) (Claims : FJWTClaims),
        ValidateClaims cfg Claims = none →
        (¬ cfg.CognitoIssuer = "" →
          stringEqCI Claims.Issuer cfg.CognitoIssuer = true) ∧
        (¬ cfg.CognitoClientId = "" →
          stringEqCI Claims.Audience cfg.CognitoClientId = true)) ∧
    (∀ (cfg : JWTConfig) (Claims : FJWTClaims),
        ¬ cfg.CognitoIssuer = "" →
        stringEqCI Claims.Issuer cfg.CognitoIssuer = false →
        ValidateClaims cfg Claims =
          some ("Invalid issuer: expected " ++ cfg.CognitoIssuer ++
            ", got " ++ Claims.Issuer)) := by
  refine ⟨?_, ?_, ?_⟩
  · intro PoolId currentTime parseClaims Token Header Payload Sig Claims
      hp hc hlt htu hsub
    have hne : ¬ Token = "" := by
      intro he
      subst he
      rw [parseToken_empty] at hp
      cases hp
    have hnexp : IsTokenExpired currentTime Claims.ExpirationTime = false := by
      simp only [IsTokenExpired, ge_iff_le, decide_eq_false_iff_not, not_le]
      exact hlt
    have hvc : ValidateClaims ⟨PoolId, "", ""⟩ Claims = none := by
      unfold ValidateClaims
      rw [if_neg (by simp)]
      rw [if_neg (by simp)]
      rw [if_neg (by rcases htu with h | h <;> simp [h, stringEqCI_refl])]
      rw [if_neg hsub]
    simp [ValidateToken, hne, hp, hc, hnexp, hvc, VerifySignature]
  · intro cfg Claims h
    unfold ValidateClaims at h
    split_ifs at h with h1 h2 h3 h4
    all_goals
      first
        | exact Option.noConfusion h
        | exact ⟨fun hiss => by tauto, fun haud => by tauto⟩
  · intro cfg Claims h1 h2
    unfold ValidateClaims
    rw [if_pos ⟨h1, by simp [h2]⟩]

/-- Witness for C7: the demo token validates under the open
configuration and returns subject "player-1". -/
theorem open_mode_validation_witness :
    ValidateToken openJWTConfig 0 demoParseClaims "h.eyJzdWIiOiJ4In0.s" =
      ⟨true, "", demoClaims⟩ :=
  open_mode_validation.1 "" 0 demoParseClaims "h.eyJzdWIiOiJ4In0.s"
    "h" "eyJzdWIiOiJ4In0" "s" demoClaims
    (by decide) (by decide) (by decide) (by decide) (by decide)

/-! ## Reward-system helper lemmas -/

theorem mapFind_eq_none_iff {α : Type} {m : List (String × α)} {k : String} :
    mapFind m k = none ↔ ∀ p ∈ m, ¬ p.1 = k := by
  simp [mapFind, List.find?_eq_none]

theorem mapFind_of_mem_nodupKeys {α : Type} {m : List (String × α)}
    {p : String × α} (hk : (m.map Prod.fst).Nodup) (hp : p ∈ m) :
    mapFind m p.1 = some p.2 := by
  induction m with
  | nil => cases hp
  | cons q tl ih =>
    rw [List.map_cons, List.nodup_cons] at hk
    rcases List.mem_cons.1 hp with h | h
    · subst h
      unfold mapFind
      rw [List.find?_cons_of_pos _ (by simp)]
      rfl
    · have hne : ¬ q.1 = p.1 := by
        intro he
        exact hk.1 (he ▸ List.mem_map_of_mem Prod.fst h)
      unfold mapFind
      rw [List.find?_cons_of_neg _ (by simpa using hne)]
      exact ih hk.2 h

theorem mapUpdate_keys {α : Type} (m : List (String × α)) (k : String)
    (f : α → α) : (mapUpdate m k f).map Prod.fst = m.map Prod.fst := by
  unfold mapUpdate
  rw [List.map_map]
  apply List.map_congr_left
  intro p _
  by_cases h : p.1 = k
  · simp [h]
  · simp [h]

theorem findOrAdd_find (m : List (String × List String)) (PlayerId : String) :
    mapFind (playerRewardsFindOrAdd m PlayerId) PlayerId =
      some ((mapFind m PlayerId).getD []) := by
  unfold playerRewardsFindOrAdd
  by_cases h : (mapFind m PlayerId).isSome
  · rw [if_pos h]
    rcases Option.isSome_iff_exists.1 h with ⟨l, hl⟩
    rw [hl]
    rfl
  · rw [if_neg h]
    have hn := Option.not_isSome_iff_eq_none.1 h
    rw [mapFind_append_new _ hn, hn]
    rfl

theorem findOrAdd_LedgerOK {m : List (String × List String)} {PlayerId : String}
    (h : LedgerOK m) : LedgerOK (playerRewardsFindOrAdd m PlayerId) := by
  unfold playerRewardsFindOrAdd
  by_cases hs : (mapFind m PlayerId).isSome
  · rw [if_pos hs]
    exact h
  · rw [if_neg hs]
    have hn := Option.not_isSome_iff_eq_none.1 hs
    constructor
    · rw [List.map_append]
      refine List.Nodup.append h.1 (by simp) ?_
      intro a ha hb
      simp only [List.map_cons, List.map_nil, List.mem_singleton] at hb
      subst hb
      rcases List.mem_map.1 ha with ⟨p, hp, hpk⟩
      exact (mapFind_eq_none_iff.1 hn p hp) hpk
    · intro p hp
      rcases List.mem_append.1 hp with hp | hp
      · exact h.2 p hp
      · simp only [List.mem_singleton] at hp
        subst hp
        exact List.nodup_nil

/-! ## GrantReward branch lemmas -/

theorem grantReward_empty_player (st : RewardSystemState) (RewardId : String) :
    GrantReward st "" RewardId =
      (FRewardGrantResult.failure "INVALID_PLAYER_ID" "Player ID is empty" "", st) := by
  simp [GrantReward]

theorem grantReward_empty_reward (st : RewardSystemState) (PlayerId : String)
    (h : ¬ PlayerId = "") :
    GrantReward st PlayerId "" =
      (FRewardGrantResult.failure "INVALID_REWARD_ID" "Reward ID is empty" "", st) := by
  simp [GrantReward, h]

theorem grantReward_no_catalog (st : RewardSystemState) (PlayerId RewardId : String)
    (h1 : ¬ PlayerId = "") (h2 : ¬ RewardId = "")
    (h3 : st.bCatalogLoaded = false) :
    GrantReward st PlayerId RewardId =
      (FRewardGrantResult.failure "REWARD_CATALOG_NOT_FOUND"
        "Rewards catalog is not loaded" RewardId, st) := by
  simp [GrantReward, h1, h2, h3]

theorem grantReward_not_in_catalog (st : RewardSystemState) (PlayerId RewardId : String)
    (h1 : ¬ PlayerId = "") (h2 : ¬ RewardId = "")
    (h3 : st.bCatalogLoaded = true)
    (h4 : st.Catalog.Rewards.any (fun e => e.Id = RewardId) = false) :
    GrantReward st PlayerId RewardId =
      (FRewardGrantResult.failure "INVALID_REWARD_ID"
        ("Reward ID " ++ RewardId ++ " not found in catalog") RewardId, st) := by
  have hv : IsValidRewardId st RewardId = false := by
    simp [IsValidRewardId, h3, h4]
  simp [GrantReward, h1, h2, h3, hv]

theorem grantReward_already (st : RewardSystemState) (PlayerId RewardId : String)
    (h1 : ¬ PlayerId = "") (h2 : ¬ RewardId = "")
    (h3 : st.bCatalogLoaded = true)
    (h4 : st.Catalog.Rewards.any (fun e => e.Id = RewardId) = true)
    (h5 : (GetPlayerRewards st PlayerId).contains RewardId = true) :
    GrantReward st PlayerId RewardId =
      (FRewardGrantResult.failure "REWARD_ALREADY_GRANTED"
         ("Reward " ++ RewardId ++ " already granted") RewardId,
       { st with PlayerRewards := playerRewardsFindOrAdd st.PlayerRewards PlayerId }) := by
  have hv : IsValidRewardId st RewardId = true := by
    simp [IsValidRewardId, h3, h4]
  have hfoa := findOrAdd_find st.PlayerRewards PlayerId
  have h5m : RewardId ∈ (mapFind st.PlayerRewards PlayerId).getD [] := by
    unfold GetPlayerRewards at h5
    simpa using h5
  simp [GrantReward, h1, h2, h3, hv, hfoa, h5m]

theorem grantReward_success_eq (st : RewardSystemState) (PlayerId RewardId : String)
    (h1 : ¬ PlayerId = "") (h2 : ¬ RewardId = "")
    (h3 : st.bCatalogLoaded = true)
    (h4 : st.Catalog.Rewards.any (fun e => e.Id = RewardId) = true)
    (h5 : (GetPlayerRewards st PlayerId).contains RewardId = false) :
    GrantReward st PlayerId RewardId =
      (FRewardGrantResult.success RewardId,
       { st with PlayerRewards :=
           (mapUpdate (playerRewardsFindOrAdd st.PlayerRewards PlayerId) PlayerId
             (fun rs => rs ++ [RewardId])) }) := by
  have hv : IsValidRewardId st RewardId = true := by
    simp [IsValidRewardId, h3, h4]
  have hfoa := findOrAdd_find st.PlayerRewards PlayerId
  have h5m : RewardId ∉ (mapFind st.PlayerRewards PlayerId).getD [] := by
    unfold GetPlayerRewards at h5
    simpa using h5
  simp [GrantReward, h1, h2, h3, hv, hfoa, h5m]

theorem grantReward_success_rewards (st : RewardSystemState) (PlayerId RewardId : String)
    (h1 : ¬ PlayerId = "") (h2 : ¬ RewardId = "")
    (h3 : st.bCatalogLoaded = true)
    (h4 : st.Catalog.Rewards.any (fun e => e.Id = RewardId) = true)
    (h5 : (GetPlayerRewards st PlayerId).contains RewardId = false) :
    GetPlayerRewards (GrantReward st PlayerId RewardId).2 PlayerId =
      GetPlayerRewards st PlayerId ++ [RewardId] := by
  rw [grantReward_success_eq st PlayerId RewardId h1 h2 h3 h4 h5]
  unfold GetPlayerRewards
  dsimp only
  rw [mapFind_mapUpdate_self, findOrAdd_find]
  rfl

/-! ## Claim theorems: reward ledger -/

/-- C2: grant validation order, first match wins — empty player id, then
empty reward id, then catalog not loaded, then reward id not in the
catalog (with a not-found message distinct from the empty-id message),
then already granted; otherwise the reward id is appended to the
player's set and success carries the reward id. -/
theorem grant_validation_order :
    (∀ (st : RewardSystemState) (RewardId : String),
        GrantReward st "" RewardId =
          (FRewardGrantResult.failure "INVALID_PLAYER_ID" "Player ID is empty" "", st)) ∧
    (∀ (st : RewardSystemState) (PlayerId : String), ¬ PlayerId = "" →
        GrantReward st PlayerId "" =
          (FRewardGrantResult.failure "INVALID_REWARD_ID" "Reward ID is empty" "", st)) ∧
    (∀ (st : RewardSystemState) (PlayerId RewardId : String),
        ¬ PlayerId = "" → ¬ RewardId = "" → st.bCatalogLoaded = false →
        GrantReward st PlayerId RewardId =
          (FRewardGrantResult.failure "REWARD_CATALOG_NOT_FOUND"
            "Rewards catalog is not loaded" RewardId, st)) ∧
    (∀ (st : RewardSystemState) (PlayerId RewardId : String),
        ¬ PlayerId = "" → ¬ RewardId = "" → st.bCatalogLoaded = true →
        st.Catalog.Rewards.any (fun e => e.Id = RewardId) = false →
        GrantReward st PlayerId RewardId =
          (FRewardGrantResult.failure "INVALID_REWARD_ID"
            ("Reward ID " ++ RewardId ++ " not found in catalog") RewardId, st)) ∧
    (∀ RewardId : String,
        ¬ ("Reward ID " ++ RewardId ++ " not found in catalog") = "Reward ID is empty") ∧
    (∀ (st : RewardSystemState) (PlayerId RewardId : String),
        ¬ PlayerId = "" → ¬ RewardId = "" → st.bCatalogLoaded = true →
        st.Catalog.Rewards.any (fun e => e.Id = RewardId) = true →
        (GetPlayerRewards st PlayerId).contains RewardId = true →
        (GrantReward st PlayerId RewardId).1 =
          FRewardGrantResult.failure "REWARD_ALREADY_GRANTED"
            ("Reward " ++ RewardId ++ " already granted") RewardId) ∧
    (∀ (st : RewardSystemState) (PlayerId RewardId : String),
        ¬ PlayerId = "" → ¬ RewardId = "" → st.bCatalogLoaded = true →
        st.Catalog.Rewards.any (fun e => e.Id = RewardId) = true →
        (GetPlayerRewards st PlayerId).contains RewardId = false →
        (GrantReward st PlayerId RewardId).1 = FRewardGrantResult.success RewardId ∧
        GetPlayerRewards (GrantReward st PlayerId RewardId).2 PlayerId =
          GetPlayerRewards st PlayerId ++ [RewardId]) := by
  refine ⟨grantReward_empty_player, grantReward_empty_reward, grantReward_no_catalog,
    grantReward_not_in_catalog, ?_, ?_, ?_⟩
  · intro RewardId heq
    have hlen : ("Reward ID " ++ RewardId ++ " not found in catalog").length
        = ("Reward ID is empty" : String).length := by rw [heq]
    rw [String.length_append, String.length_append] at hlen
    have e1 : ("Reward ID " : String).length = 10 := by decide
    have e2 : (" not found in catalog" : String).length = 21 := by decide
    have e3 : ("Reward ID is empty" : String).length = 18 := by decide
    rw [e1, e2, e3] at hlen
    omega
  · intro st PlayerId RewardId h1 h2 h3 h4 h5
    rw [grantReward_already st PlayerId RewardId h1 h2 h3 h4 h5]
  · intro st PlayerId RewardId h1 h2 h3 h4 h5
    refine ⟨?_, grantReward_success_rewards st PlayerId RewardId h1 h2 h3 h4 h5⟩
    rw [grantReward_success_eq st PlayerId RewardId h1 h2 h3 h4 h5]

/-- Witness for C2: granting a catalog reward to a fresh player
succeeds and appends it to the player's set. -/
theorem grant_validation_order_witness :
    (GrantReward (freshRewardSystem demoCatalog) "p1" "sword_of_dawn").1 =
      FRewardGrantResult.success "sword_of_dawn" ∧
    GetPlayerRewards (GrantReward (freshRewardSystem demoCatalog) "p1"
        "sword_of_dawn").2 "p1" =
      GetPlayerRewards (freshRewardSystem demoCatalog) "p1" ++ ["sword_of_dawn"] :=
  grant_validation_order.2.2.2.2.2.2 (freshRewardSystem demoCatalog) "p1"
    "sword_of_dawn" (by decide) (by decide) (by decide) (by decide) (by decide)

/-! ## Idempotence invariant -/

theorem grant_preserves_LedgerOK (st : RewardSystemState) (PlayerId RewardId : String)
    (h : LedgerOK st.PlayerRewards) :
    LedgerOK (GrantReward st PlayerId RewardId).2.PlayerRewards := by
  by_cases h1 : PlayerId = ""
  · subst h1
    rw [grantReward_empty_player]
    exact h
  by_cases h2 : RewardId = ""
  · subst h2
    rw [grantReward_empty_reward st PlayerId h1]
    exact h
  by_cases h3 : st.bCatalogLoaded = true
  case neg =>
    have h3f : st.bCatalogLoaded = false := by simpa using h3
    rw [grantReward_no_catalog st PlayerId RewardId h1 h2 h3f]
    exact h
  by_cases h4 : st.Catalog.Rewards.any (fun e => e.Id = RewardId) = true
  case neg =>
    have h4f : st.Catalog.Rewards.any (fun e => e.Id = RewardId) = false := by
      simpa using h4
    rw [grantReward_not_in_catalog st PlayerId RewardId h1 h2 h3 h4f]
    exact h
  by_cases h5 : (GetPlayerRewards st PlayerId).contains RewardId = true
  · rw [grantReward_already st PlayerId RewardId h1 h2 h3 h4 h5]
    exact findOrAdd_LedgerOK h
  · have h5f : (GetPlayerRewards st PlayerId).contains RewardId = false := by
      simpa using h5
    have hnotin : RewardId ∉ (mapFind st.PlayerRewards PlayerId).getD [] := by
      unfold GetPlayerRewards at h5f
      simpa using h5f
    rw [grantReward_success_eq st PlayerId RewardId h1 h2 h3 h4 h5f]
    have hfoa : LedgerOK (playerRewardsFindOrAdd st.PlayerRewards PlayerId) :=
      findOrAdd_LedgerOK h
    constructor
    · rw [mapUpdate_keys]
      exact hfoa.1
    · intro q hq
      rcases List.mem_map.1 hq with ⟨p, hp, rfl⟩
      by_cases hpk : p.1 = PlayerId
      · rw [if_pos hpk]
        have hfind : mapFind (playerRewardsFindOrAdd st.PlayerRewards PlayerId) p.1
            = some p.2 := mapFind_of_mem_nodupKeys hfoa.1 hp
        rw [hpk] at hfind
        have hGD := Option.some.inj
          ((findOrAdd_find st.PlayerRewards PlayerId).symm.trans hfind)
        have hnd : p.2.Nodup := hfoa.2 p hp
        have hnotin2 : RewardId ∉ p.2 := by
          rw [← hGD]
          exact hnotin
        show (p.2 ++ [RewardId]).Nodup
        rw [List.nodup_append]
        refine ⟨hnd, List.nodup_singleton _, ?_⟩
        intro a ha hb
        rw [List.mem_singleton] at hb
        subst hb
        exact hnotin2 ha
      · rw [if_neg hpk]
        exact hfoa.2 p hp

theorem foldGrants_LedgerOK (cat : FRewardCatalog) (calls : List (String × String)) :
    LedgerOK ((calls.foldl (fun s c => (GrantReward s c.1 c.2).2)
      (freshRewardSystem cat)).PlayerRewards) := by
  suffices h : ∀ (l : List (String × String)) (st : RewardSystemState),
      LedgerOK st.PlayerRewards →
      LedgerOK ((l.foldl (fun s c => (GrantReward s c.1 c.2).2) st).PlayerRewards) by
    refine h calls (freshRewardSystem cat) ?_
    exact ⟨List.nodup_nil, by intro p hp; cases hp⟩
  intro l
  induction l with
  | nil => exact fun st hst => hst
  | cons c tl ih =>
    intro st hst
    exact ih _ (grant_preserves_LedgerOK st c.1 c.2 hst)

theorem ledger_count_le_one {m : List (String × List String)}
    (h : LedgerOK m) (p r : String) : ((mapFind m p).getD []).count r ≤ 1 := by
  cases hf : mapFind m p with
  | none => simp
  | some l =>
    rcases mapFind_mem hf with ⟨q, hq, hq2⟩
    have hnd : l.Nodup := hq2 ▸ h.2 q hq
    exact List.nodup_iff_count_le_one.1 hnd r

/-- C3: grant idempotence — a grant that succeeds is followed, on the
same arguments, by `REWARD_ALREADY_GRANTED`; and after any sequence of
`GrantReward` calls from a freshly initialized ledger, a player's
reward set holds at most one entry for any reward id. -/
theorem grant_idempotence :
    (∀ (st : RewardSystemState) (p r : String),
        ¬ p = "" → ¬ r = "" → st.bCatalogLoaded = true →
        st.Catalog.Rewards.any (fun e => e.Id = r) = true →
        (GetPlayerRewards st p).contains r = false →
        (GrantReward st p r).1 = FRewardGrantResult.success r ∧
        (GrantReward (GrantReward st p r).2 p r).1 =
          FRewardGrantResult.failure "REWARD_ALREADY_GRANTED"
            ("Reward " ++ r ++ " already granted") r) ∧
    (∀ (cat : FRewardCatalog) (calls : List (String × String)) (p r : String),
        (GetPlayerRewards (calls.foldl (fun s c => (GrantReward s c.1 c.2).2)
          (freshRewardSystem cat)) p).count r ≤ 1) := by
  constructor
  · intro st p r h1 h2 h3 h4 h5
    have hsucc := grantReward_success_eq st p r h1 h2 h3 h4 h5
    have hrew := grantReward_success_rewards st p r h1 h2 h3 h4 h5
    refine ⟨by rw [hsucc], ?_⟩
    have hb : (GrantReward st p r).2.bCatalogLoaded = true := by
      rw [hsucc]
      exact h3
    have h4b : (GrantReward st p r).2.Catalog.Rewards.any (fun e => e.Id = r) = true := by
      rw [hsucc]
      exact h4
    have hcont : (GetPlayerRewards (GrantReward st p r).2 p).contains r = true := by
      rw [hrew]
      simp
    rw [grantReward_already (GrantReward st p r).2 p r h1 h2 hb h4b hcont]
  · intro cat calls p r
    have h := foldGrants_LedgerOK cat calls
    unfold GetPlayerRewards
    exact ledger_count_le_one h p r

/-- Witness for C3: grant then regrant of "sword_of_dawn" on the demo
catalog gives success then `REWARD_ALREADY_GRANTED`. -/
theorem grant_idempotence_witness :
    (GrantReward (freshRewardSystem demoCatalog) "p1" "sword_of_dawn").1 =
      FRewardGrantResult.success "sword_of_dawn" ∧
    (GrantReward (GrantReward (freshRewardSystem demoCatalog) "p1"
        "sword_of_dawn").2 "p1" "sword_of_dawn").1 =
      FRewardGrantResult.failure "REWARD_ALREADY_GRANTED"
        ("Reward " ++ "sword_of_dawn" ++ " already granted") "sword_of_dawn" :=
  grant_idempotence.1 (freshRewardSystem demoCatalog) "p1" "sword_of_dawn"
    (by decide) (by decide) (by decide) (by decide) (by decide)

/-! ## Claim theorems: session state machine -/

/-- C1: `StartSession` succeeds exactly when the session exists in state
CREATED (moving it to ACTIVE), `EndSession` exactly when it is ACTIVE
(moving it to ENDED), a rejected transition returns failure and leaves
the registry unchanged, and no sequence of registry operations can put
a stored session into a state outside {CREATED, ACTIVE, ENDED}. -/
theorem session_state_machine_safety :
    (∀ (st : Registry) (sid : String),
        (StartSession st sid).1 = true ↔
          ∃ s, mapFind st sid = some s ∧ s.State = ESessionState.CREATED) ∧
    (∀ (st : Registry) (sid : String) (s : FPlayerSession),
        mapFind st sid = some s → s.State = ESessionState.CREATED →
        mapFind (StartSession st sid).2 sid =
          some { s with State := ESessionState.ACTIVE }) ∧
    (∀ (st : Registry) (sid : String),
        (StartSession st sid).1 = false → (StartSession st sid).2 = st) ∧
    (∀ (st : Registry) (sid : String) (now : Int),
        (EndSession st sid now).1 = true ↔
          ∃ s, mapFind st sid = some s ∧ s.State = ESessionState.ACTIVE) ∧
    (∀ (st : Registry) (sid : String) (s : FPlayerSession) (now : Int),
        mapFind st sid = some s → s.State = ESessionState.ACTIVE →
        (mapFind (EndSession st sid now).2 sid).map (fun q => q.State) =
          some ESessionState.ENDED) ∧
    (∀ (st : Registry) (sid : String) (now : Int),
        (EndSession st sid now).1 = false → (EndSession st sid now).2 = st) ∧
    (∀ (ops : List RegOp) (sid : String) (s : FPlayerSession),
        mapFind (runRegOps ops) sid = some s →
        s.State = ESessionState.CREATED ∨ s.State = ESessionState.ACTIVE ∨
          s.State = ESessionState.ENDED) := by
  refine ⟨?_, ?_, ?_, ?_, ?_, ?_, ?_⟩
  · intro st sid
    exact transitionState_fst st sid ESessionState.CREATED ESessionState.ACTIVE
  · intro st sid s h hs
    exact (transitionState_success_find ESessionState.CREATED ESessionState.ACTIVE h hs).2
  · intro st sid h
    exact transitionState_fail h
  · intro st sid now
    rw [endSession_fst]
    exact transitionState_fst st sid ESessionState.ACTIVE ESessionState.ENDED
  · intro st sid s now h hs
    rw [(endSession_success now h hs).2]
    rfl
  · intro st sid now h
    exact endSession_fail h
  · intro ops sid s h
    rcases mapFind_mem h with ⟨p, hp, hp2⟩
    have hok := runRegOps_OK ops p hp
    rw [hp2] at hok
    cases hs : s.State with
    | CREATED => exact Or.inl rfl
    | ACTIVE => exact Or.inr (Or.inl rfl)
    | ENDED => exact Or.inr (Or.inr rfl)
    | EXPIRED => exact absurd hs hok

/-- Witness for C1: starting the freshly created demo session moves it
to ACTIVE. -/
theorem session_state_machine_safety_witness :
    mapFind (StartSession demoCreatedReg "s1").2 "s1" =
      some { SessionId := "s1", PlayerId := "p1", ShardId := "shard1",
             State := ESessionState.ACTIVE, StartTime := 0, EndTime := 0,
             Events := [], Rewards := [], TTL := 0 } :=
  session_state_machine_safety.2.1 demoCreatedReg "s1"
    ⟨"s1", "p1", "shard1", ESessionState.CREATED, 0, 0, [], [], 0⟩
    (by decide) (by decide)

/-- C4: for an ACTIVE session, `EndSession` succeeds, stamps the end
time `T` and sets the session TTL to exactly `T + 72` hours in seconds,
and every previously recorded event carries that same TTL afterward. -/
theorem ttl_correctness :
    (∀ T : Int, CalculateTTLFromTime T = T + 72 * 3600) ∧
    (∀ (st : Registry) (sid : String) (s : FPlayerSession) (now : Int),
        mapFind st sid = some s → s.State = ESessionState.ACTIVE →
        (EndSession st sid now).1 = true ∧
        mapFind (EndSession st sid now).2 sid =
          some { s with
                   State := ESessionState.ENDED
                   EndTime := now
                   TTL := now + 72 * 3600
                   Events := s.Events.map (fun e => { e with TTL := now + 72 * 3600 }) }) ∧
    (∀ (st : Registry) (sid : String) (s : FPlayerSession) (now : Int)
        (s2 : FPlayerSession),
        mapFind st sid = some s → s.State = ESessionState.ACTIVE →
        mapFind (EndSession st sid now).2 sid = some s2 →
        s2.EndTime = now ∧ s2.TTL = now + 72 * 3600 ∧
        s2.Events.length = s.Events.length ∧
        ∀ e ∈ s2.Events, e.TTL = s2.TTL) := by
  refine ⟨fun T => rfl, ?_, ?_⟩
  · intro st sid s now h hs
    exact endSession_success now h hs
  · intro st sid s now s2 h hs h3
    have h2 := (endSession_success now h hs).2
    rw [h3] at h2
    have hs2 := Option.some.inj h2
    subst hs2
    refine ⟨rfl, rfl, by simp, ?_⟩
    intro e he
    rcases List.mem_map.1 he with ⟨e0, _, rfl⟩
    rfl

/-- Witness for C4: ending the demo session (one event) at time 10 sets
its TTL, and the event's TTL, to 10 + 72 hours. -/
theorem ttl_correctness_witness :
    (EndSession demoEventReg "s1" 10).1 = true ∧
    (mapFind (EndSession demoEventReg "s1" 10).2 "s1").map (fun q => q.TTL)
      = some (10 + 72 * 3600) := by
  have h := ttl_correctness.2.1 demoEventReg "s1"
    ⟨"s1", "p1", "shard1", ESessionState.ACTIVE, 0, 0,
     [⟨"e1", 5, "p1", "spell_cast", [("rune", "fire")], 0⟩], [], 0⟩ 10
    (by decide) (by decide)
  exact ⟨h.1, by rw [h.2]; rfl⟩

/-- C8 counterexample: `AddReward` does not check the session state —
on a session in state CREATED it adds the reward id, mutating the
session, contradicting the claim that it is a no-op outside ACTIVE. -/
theorem event_reward_active_only_counterexample :
    GetSessionState demoCreatedReg "s1" = ESessionState.CREATED ∧
    ¬ AddReward demoCreatedReg "s1" "r1" = demoCreatedReg ∧
    (mapFind (AddReward demoCreatedReg "s1" "r1") "s1").map (fun q => q.Rewards)
      = some ["r1"] := by
  decide

/-- C8 (amended): `TrackEvent` is a no-op when the session is missing or
not ACTIVE; `AddReward` is a no-op only when the session is missing or
the reward id is already in the session's reward list — otherwise it
appends the reward id regardless of the session's state. -/
theorem event_reward_active_only :
    (∀ (st : Registry) (sid EventType : String)
        (EventData : List (String × String)) (freshId : String) (now : Int),
        mapFind st sid = none →
        TrackEvent st sid EventType EventData freshId now = st) ∧
    (∀ (st : Registry) (sid EventType : String)
        (EventData : List (String × String)) (freshId : String) (now : Int)
        (s : FPlayerSession),
        mapFind st sid = some s → ¬ s.State = ESessionState.ACTIVE →
        TrackEvent st sid EventType EventData freshId now = st) ∧
    (∀ (st : Registry) (sid RewardId : String),
        mapFind st sid = none → AddReward st sid RewardId = st) ∧
    (∀ (st : Registry) (sid RewardId : String) (s : FPlayerSession),
        mapFind st sid = some s → s.Rewards.contains RewardId = true →
        AddReward st sid RewardId = st) ∧
    (∀ (st : Registry) (sid RewardId : String) (s : FPlayerSession),
        mapFind st sid = some s → s.Rewards.contains RewardId = false →
        mapFind (AddReward st sid RewardId) sid =
          some { s with Rewards := s.Rewards ++ [RewardId] }) := by
  refine ⟨?_, ?_, ?_, ?_, ?_⟩
  · intro st sid EventType EventData freshId now h
    simp [TrackEvent, h]
  · intro st sid EventType EventData freshId now s h hs
    simp [TrackEvent, h, hs]
  · intro st sid RewardId h
    simp [AddReward, h]
  · intro st sid RewardId s h hc
    have hm : RewardId ∈ s.Rewards := by simpa using hc
    simp [AddReward, h, hm]
  · intro st sid RewardId s h hc
    simp only [AddReward, h]
    rw [if_neg (by rw [hc]; exact Bool.false_ne_true)]
    rw [mapFind_mapUpdate_self, h]
    rfl

/-- Witness for the amended C8: adding a reward to the CREATED demo
session appends it to the session's reward list. -/
theorem event_reward_active_only_witness :
    mapFind (AddReward demoCreatedReg "s1" "r1") "s1" =
      some { SessionId := "s1", PlayerId := "p1", ShardId := "shard1",
             State := ESessionState.CREATED, StartTime := 0, EndTime := 0,
             Events := [], Rewards := ["r1"], TTL := 0 } :=
  event_reward_active_only.2.2.2.2 demoCreatedReg "s1" "r1"
    ⟨"s1", "p1", "shard1", ESessionState.CREATED, 0, 0, [], [], 0⟩
    (by decide) (by decide)

/-! ## Claim theorems: admission capacity gating -/

/-- C6: the capacity gate in `PreLogin` runs before any token
processing — when the live-connection count (computed by filtering out
invalid handles, not by eager removal) is at or above `MaxPlayers`, the
connection is rejected as server-full no matter what token or validator
is supplied; below capacity, `PreLogin` proceeds to the token stage.
With `MaxPlayers = 15` and 15 live connections, a 16th attempt is
rejected as server-full. -/
theorem capacity_gating :
    (∀ (st : GameModeState) (cfg : JWTConfig) (currentTime : Int)
        (parseClaims : String → Option FJWTClaims) (opts : ConnectOptions),
        st.MaxPlayers ≤ GetCurrentPlayerCount st →
        PreLogin st cfg currentTime parseClaims opts = some (serverFullMsg st)) ∧
    (∀ st : GameModeState,
        CanAcceptNewPlayer st = false ↔ st.MaxPlayers ≤ GetCurrentPlayerCount st) ∧
    (∀ (st : GameModeState) (cfg : JWTConfig) (currentTime : Int)
        (parseClaims : String → Option FJWTClaims) (opts : ConnectOptions),
        CanAcceptNewPlayer st = true →
        PreLogin st cfg currentTime parseClaims opts =
          PreLoginAfterCapacity st cfg currentTime parseClaims opts) ∧
    (∀ (conns : List Bool) (maxP : Int) (gi gp : Bool),
        GetCurrentPlayerCount ⟨false :: conns, maxP, gi, gp⟩ =
          GetCurrentPlayerCount ⟨conns, maxP, gi, gp⟩ ∧
        GetCurrentPlayerCount ⟨true :: conns, maxP, gi, gp⟩ =
          1 + GetCurrentPlayerCount ⟨conns, maxP, gi, gp⟩) ∧
    (∀ (gi gp : Bool) (cfg : JWTConfig) (currentTime : Int)
        (parseClaims : String → Option FJWTClaims) (opts : ConnectOptions),
        PreLogin ⟨List.replicate 15 true, 15, gi, gp⟩ cfg currentTime parseClaims opts =
          some "Server full. Maximum 15 players allowed.") := by
  have hiff : ∀ st : GameModeState,
      CanAcceptNewPlayer st = false ↔ st.MaxPlayers ≤ GetCurrentPlayerCount st := by
    intro st
    simp [CanAcceptNewPlayer, not_lt]
  have hcap : ∀ (st : GameModeState) (cfg : JWTConfig) (currentTime : Int)
      (parseClaims : String → Option FJWTClaims) (opts : ConnectOptions),
      st.MaxPlayers ≤ GetCurrentPlayerCount st →
      PreLogin st cfg currentTime parseClaims opts = some (serverFullMsg st) := by
    intro st cfg currentTime parseClaims opts h
    have hfull : CanAcceptNewPlayer st = false := (hiff st).2 h
    simp [PreLogin, hfull]
  refine ⟨hcap, hiff, ?_, ?_, ?_⟩
  · intro st cfg currentTime parseClaims opts h
    simp [PreLogin, h]
  · intro conns maxP gi gp
    constructor
    · simp [GetCurrentPlayerCount, List.filter_cons]
    · simp [GetCurrentPlayerCount, List.filter_cons]
      omega
  · intro gi gp cfg currentTime parseClaims opts
    have hc : GetCurrentPlayerCount ⟨List.replicate 15 true, 15, gi, gp⟩ = 15 := rfl
    have h := hcap ⟨List.replicate 15 true, 15, gi, gp⟩ cfg currentTime parseClaims opts
      (by rw [hc])
    rw [h]
    rfl

/-- Witness for C6: a full 15-player server rejects a 16th connection
carrying a valid token, before any token check. -/
theorem capacity_gating_witness :
    PreLogin fullServer openJWTConfig 0 demoParseClaims demoOpts =
      some "Server full. Maximum 15 players allowed." :=
  capacity_gating.2.2.2.2 false false openJWTConfig 0 demoParseClaims demoOpts

end HyperMageVR
